import Mathlib

/-!
Shallow embedding of the grep matching core (`src/grep/mod.rs`) over byte
lists.  Strings are modelled as lists of byte values (`List Nat`); the
pattern grammar is ASCII, so Rust's `char_indices` enumeration of a line
coincides with enumeration of byte positions.  Fallible Rust code
(`anyhow::Result`) becomes the `Res` type below; run-time panics (index
out of bounds, `expect` failure, `usize` subtraction underflow) are
modelled explicitly by the `Res.panic` value.
-/

set_option autoImplicit false

/-- Relevant ASCII byte constants, mirroring the `const` items in the source. -/
def CHARACTER_CLASS : Nat := 92   -- the backslash byte
def CHARACTER_ALPHA : Nat := 119  -- the letter w
def CHARACTER_DIGIT : Nat := 100  -- the letter d
def START_ANCHOR : Nat := 94      -- the caret
def END_ANCHOR : Nat := 36        -- the dollar sign
def ONE_OR_MORE : Nat := 43       -- the plus sign
def ZERO_OR_ONE : Nat := 63      -- the question mark

/-- Outcome of running a fallible piece of the matcher: an ordinary value,
the single `anyhow::bail!` error (carrying the offending escape byte), or a
run-time panic. -/
inductive Res (α : Type) where
  | ok (a : α)
  | err (b : Nat)
  | panic
  deriving DecidableEq, Repr

/-- `enum CharacterClass`: the two supported escape classes. -/
inductive CharacterClass where
  | Alpha
  | Digit
  deriving DecidableEq, Repr

/-- `enum CharacterType`: a literal byte or an escape class. -/
inductive CharacterType where
  | Character (b : Nat)
  | Class (c : CharacterClass)
  deriving DecidableEq, Repr

/-- `enum MatchingType`: a `CharacterType` with its quantifier tag. -/
inductive MatchingType where
  | Simple (c : CharacterType)
  | Multiple (c : CharacterType)
  | Optional (c : CharacterType)
  deriving DecidableEq, Repr

/-- `struct PositiveMatchResult`. -/
structure PositiveMatchResult where
  patternChars : Nat
  inputChars : Nat
  deriving DecidableEq, Repr

/-- `enum MatchResult`. -/
inductive MatchResult where
  | Positive (r : PositiveMatchResult)
  | Negative
  deriving DecidableEq, Repr

/-- `u8::is_ascii_alphanumeric`. -/
def isAsciiAlphanumeric (b : Nat) : Bool :=
  (48 ≤ b && b ≤ 57) || (65 ≤ b && b ≤ 90) || (97 ≤ b && b ≤ 122)

/-- `u8::is_ascii_digit`. -/
def isAsciiDigit (b : Nat) : Bool :=
  48 ≤ b && b ≤ 57

/-- `MatchResult::new`. -/
def MatchResult.new (result : Bool) (patternChars inputChars : Nat) : MatchResult :=
  if result then .Positive ⟨patternChars, inputChars⟩ else .Negative

/-- `MatchResult::is_matching`. -/
def MatchResult.isMatching : MatchResult → Bool
  | .Positive _ => true
  | .Negative => false

/-- `CharacterClass::get_type`: classify the byte after a backslash. -/
def CharacterClass.getType (pattern : Nat) : Res CharacterType :=
  if pattern = CHARACTER_ALPHA then .ok (.Class .Alpha)
  else if pattern = CHARACTER_DIGIT then .ok (.Class .Digit)
  else .err pattern  -- bail!("Unhandled pattern: \\{}", pattern)

/-- `CharacterClass::matches`. -/
def CharacterClass.matches (c : CharacterClass) (input : Nat) : MatchResult :=
  MatchResult.new
    (match c with
      | .Alpha => isAsciiAlphanumeric input
      | .Digit => isAsciiDigit input)
    2 1

/-- `CharacterType::get_type`: reads `pattern[0]` and, for an escape,
`pattern[1]`; either read is a panic when the slice is too short. -/
def CharacterType.getType (pattern : List Nat) : Res CharacterType :=
  match pattern with
  | [] => .panic  -- pattern[0] is out of bounds
  | b :: rest =>
    if b = CHARACTER_CLASS then
      match rest with
      | [] => .panic  -- pattern[1] is out of bounds
      | c :: _ => CharacterClass.getType c
    else .ok (.Character b)

/-- `CharacterType::matches`. -/
def CharacterType.matches (c : CharacterType) (input : Nat) : MatchResult :=
  match c with
  | .Character ch => MatchResult.new (input == ch) 1 1
  | .Class cl => cl.matches input

/-- `CharacterType::len`: encoded width in pattern bytes. -/
def CharacterType.len : CharacterType → Nat
  | .Character _ => 1
  | .Class _ => 2

/-- `CharacterType::match_count`: length of the longest matching prefix
of the input (greedy run length). -/
def CharacterType.matchCount (c : CharacterType) (input : List Nat) : Nat :=
  (input.takeWhile (fun i => (c.matches i).isMatching)).length

/-- `MatchingType::get_type`: classify the leading element, then look at
the pattern byte right after it for a quantifier. -/
def MatchingType.getType (pattern : List Nat) : Res MatchingType :=
  match CharacterType.getType pattern with
  | .err b => .err b
  | .panic => .panic
  | .ok character =>
    if character.len < pattern.length then
      match (pattern.drop character.len).head? with
      | some q =>
        if q = ONE_OR_MORE then .ok (.Multiple character)
        else if q = ZERO_OR_ONE then .ok (.Optional character)
        else .ok (.Simple character)
      | none => .ok (.Simple character)
    else .ok (.Simple character)

/-- `MatchingType::matches`: one matching step against the remaining input. -/
def MatchingType.matches (t : MatchingType) (input : List Nat) : MatchResult :=
  match t with
  | .Simple c =>
    match input with
    | [] => .Negative
    | i :: _ => c.matches i
  | .Multiple c =>
    let m := c.matchCount input
    MatchResult.new (decide (m > 0)) (c.len + 1) m
  | .Optional c =>
    let m := c.matchCount input
    MatchResult.new (decide (m < 2)) (c.len + 1) m

/-- The loop body of `match_characters_exact`, with an explicit fuel
argument bounding the number of iterations.  The fuel-exhausted case is
unreachable when the fuel is at least the pattern length, because every
positive step consumes at least one pattern byte. -/
def matchCharactersExactAux : Nat → List Nat → List Nat → Res Bool
  | _, _, [] => .ok true
  | 0, _, _ :: _ => .panic
  | fuel + 1, input, p :: ps =>
    match MatchingType.getType (p :: ps) with
    | .err b => .err b
    | .panic => .panic
    | .ok t =>
      match t.matches input with
      | .Negative => .ok false
      | .Positive r =>
        matchCharactersExactAux fuel (input.drop r.inputChars)
          ((p :: ps).drop r.patternChars)

/-- `match_characters_exact`: match the whole pattern starting at input
offset 0. -/
def matchCharactersExact (inputLine pattern : List Nat) : Res Bool :=
  matchCharactersExactAux pattern.length inputLine pattern

/-- `match_characters_iterate`: try the exact matcher at every start
position of the line (for ASCII, `char_indices` enumerates exactly the
byte positions), short-circuiting on the first success or error. -/
def matchCharactersIterate (inputLine pattern : List Nat) : Res Bool :=
  match inputLine with
  | [] => .ok false
  | _ :: rest =>
    match matchCharactersExact inputLine pattern with
    | .ok true => .ok true
    | .ok false => matchCharactersIterate rest pattern
    | .err b => .err b
    | .panic => .panic

/-- `match_characters`: the anchor/search driver.  Reading `pattern[0]` of
an empty pattern panics; in the end-anchor branch, the `usize` subtraction
`input_line.len() - pattern_len` (and the slice built from it) panics when
the stripped pattern is longer than the line. -/
def matchCharacters (inputLine pattern : List Nat) : Res Bool :=
  match pattern with
  | [] => .panic  -- pattern.as_bytes()[0] is out of bounds
  | p0 :: _ =>
    let hasStartAnchor := p0 = START_ANCHOR
    let hasEndAnchor := pattern.getLast? = some END_ANCHOR
    let patternLen := pattern.length
    let patternLen := if hasStartAnchor then patternLen - 1 else patternLen
    let patternLen := if hasEndAnchor then patternLen - 1 else patternLen
    if hasStartAnchor then
      matchCharactersExact inputLine (pattern.drop 1)
    else if hasEndAnchor then
      if inputLine.length < patternLen then
        .panic  -- input_line.len() - pattern_len underflows
      else
        matchCharactersExact
          (inputLine.drop (inputLine.length - patternLen))
          (pattern.take (pattern.length - 1))
    else
      matchCharactersIterate inputLine pattern

/-- `match_match_group`: set-membership test over the whole line.
`.expect("no group speciefied")` on an empty group is a panic. -/
def matchMatchGroup (inputLine pattern : List Nat) : Res Bool :=
  match pattern with
  | [] => .panic  -- expect fails: no group specified
  | c :: rest =>
    let isNegative : Bool := c == START_ANCHOR
    let group := if isNegative then rest else c :: rest
    .ok (group.any fun ch => inputLine.contains ch != isNegative)

/-- `match_pattern`: public entry point.  The group path hands
`pattern[1..count - 2]` to the group matcher; that slice expression
panics when `count = 2` (start index past end index). -/
def matchPattern (inputLine pattern : List Nat) : Res Bool :=
  if pattern.head? = some 91 ∧ pattern.getLast? = some 93 then
    if pattern.length = 2 then
      .panic  -- the slice pattern[1..0] is invalid
    else
      matchMatchGroup inputLine ((pattern.drop 1).take (pattern.length - 3))
  else
    matchCharacters inputLine pattern

/-! ### Helper lemmas -/

/-- A positive `MatchResult.new` carries exactly the reported consumptions. -/
theorem MatchResult.new_positive {b : Bool} {p i : Nat} {r : PositiveMatchResult}
    (h : MatchResult.new b p i = .Positive r) : r = ⟨p, i⟩ := by
  unfold MatchResult.new at h
  split at h
  · injection h with h1
    exact h1.symm
  · cases h

/-- Every positive matching step consumes at least one pattern byte. -/
theorem MatchingType.matches_positive_patternChars_pos
    (t : MatchingType) (input : List Nat) (r : PositiveMatchResult)
    (h : t.matches input = .Positive r) : 0 < r.patternChars := by
  cases t with
  | Simple c =>
    cases input with
    | nil => simp [MatchingType.matches] at h
    | cons i is =>
      simp only [MatchingType.matches] at h
      cases c with
      | Character ch =>
        simp only [CharacterType.matches] at h
        rw [MatchResult.new_positive h]
        decide
      | Class cl =>
        simp only [CharacterType.matches, CharacterClass.matches] at h
        rw [MatchResult.new_positive h]
        decide
  | Multiple c =>
    simp only [MatchingType.matches] at h
    rw [MatchResult.new_positive h]
    simp
  | Optional c =>
    simp only [MatchingType.matches] at h
    rw [MatchResult.new_positive h]
    simp

/-- The exact-matcher loop on an exhausted pattern succeeds, for any fuel. -/
theorem matchCharactersExactAux_nil (fuel : Nat) (input : List Nat) :
    matchCharactersExactAux fuel input [] = .ok true := by
  cases fuel <;> rfl

/-- The exact-matcher loop is insensitive to the fuel once the fuel covers
the pattern length, because each positive step drops at least one pattern
byte. -/
theorem matchCharactersExactAux_fuel (n : Nat) :
    ∀ (pattern input : List Nat) (f1 f2 : Nat), pattern.length ≤ n →
      pattern.length ≤ f1 → pattern.length ≤ f2 →
      matchCharactersExactAux f1 input pattern
        = matchCharactersExactAux f2 input pattern := by
  induction n with
  | zero =>
    intro pattern input f1 f2 hn _ _
    have hp : pattern = [] := List.length_eq_zero.mp (Nat.le_zero.mp hn)
    subst hp
    rw [matchCharactersExactAux_nil, matchCharactersExactAux_nil]
  | succ n ih =>
    intro pattern input f1 f2 hn h1 h2
    cases pattern with
    | nil => rw [matchCharactersExactAux_nil, matchCharactersExactAux_nil]
    | cons p ps =>
      cases f1 with
      | zero => simp at h1
      | succ g1 =>
        cases f2 with
        | zero => simp at h2
        | succ g2 =>
          simp only [matchCharactersExactAux]
          split
          · rfl
          · rfl
          · split
            · rfl
            · rename_i r hm
              have hpc := MatchingType.matches_positive_patternChars_pos _ _ _ hm
              have hlen : ((p :: ps).drop r.patternChars).length
                  = (ps.length + 1) - r.patternChars := by
                simp [List.length_drop]
              exact ih _ _ _ _
                (by rw [hlen]; simp only [List.length_cons] at hn; omega)
                (by rw [hlen]; simp only [List.length_cons] at h1; omega)
                (by rw [hlen]; simp only [List.length_cons] at h2; omega)

/-! ### Claim theorems -/

/-- Claim C8 (confirmed): `match_characters_exact` terminates on every
input line and pattern.  Every positive step consumes at least one pattern
byte, so a fuel of `pattern.length` already covers the whole loop: any
larger iteration budget computes the same result as `matchCharactersExact`
(which runs the loop with exactly that budget), i.e. the loop reaches the
end of the pattern, or exits on a negative step, an error or a panic,
within `pattern.length` iterations. -/
theorem c8_exact_matcher_terminates (fuel : Nat) (input pattern : List Nat)
    (h : pattern.length ≤ fuel) :
    matchCharactersExactAux fuel input pattern = matchCharactersExact input pattern :=
  matchCharactersExactAux_fuel pattern.length pattern input fuel pattern.length
    (Nat.le_refl _) h (Nat.le_refl _)

/-- Witness for C8 at a concrete fuel, line and pattern. -/
theorem c8_exact_matcher_terminates_witness :
    ([97, 43] : List Nat).length ≤ 7 ∧
      matchCharactersExactAux 7 [97, 97, 98] [97, 43]
        = matchCharactersExact [97, 97, 98] [97, 43] :=
  ⟨by decide, c8_exact_matcher_terminates 7 [97, 97, 98] [97, 43] (by decide)⟩

/-- Claim C6 (confirmed): a OneOrMore (`+`) step is negative exactly when
the greedy run (`match_count`) of its character type over the remaining
input is zero, and otherwise consumes `CharacterType` width + 1 pattern
bytes and the entire greedy run of input bytes in one step. -/
theorem c6_one_or_more_step (c : CharacterType) (input : List Nat) :
    MatchingType.matches (.Multiple c) input =
      (if 0 < c.matchCount input
        then .Positive ⟨c.len + 1, c.matchCount input⟩
        else .Negative) := by
  simp only [MatchingType.matches, MatchResult.new]
  by_cases h : 0 < c.matchCount input
  · simp [h]
  · simp [h, Nat.pos_iff_ne_zero]

/-- Claim C7 (confirmed): a ZeroOrOne (`?`) step succeeds exactly when the
greedy run of its character type is 0 or 1, and then consumes
`CharacterType` width + 1 pattern bytes and `min(run_length, 1)` input
bytes (the run itself, which is at most one byte on success). -/
theorem c7_zero_or_one_step (c : CharacterType) (input : List Nat) :
    MatchingType.matches (.Optional c) input =
      (if c.matchCount input < 2
        then .Positive ⟨c.len + 1, min (c.matchCount input) 1⟩
        else .Negative) := by
  simp only [MatchingType.matches, MatchResult.new]
  by_cases h : c.matchCount input < 2
  · have hmin : min (c.matchCount input) 1 = c.matchCount input :=
      Nat.min_eq_left (by omega)
    simp [h, hmin]
  · simp [h]

/-- Claim C10 (confirmed): a pattern whose remaining slice is the single
backslash byte makes `CharacterType::get_type` read `pattern[1]` out of
bounds; through the public entry point the call panics on every non-empty
line (and on the empty line the unanchored search tries no positions, so
classification never runs). -/
theorem c10_trailing_backslash_panics :
    CharacterType.getType [92] = .panic ∧
      ∀ input : List Nat,
        matchPattern input [92] = (if input.isEmpty then .ok false else .panic) := by
  refine ⟨rfl, ?_⟩
  intro input
  cases input with
  | nil => rfl
  | cons i is => rfl

/-- The exact matcher against a one-byte literal pattern tests exactly the
first input byte. -/
theorem matchCharactersExact_single (c : Nat) (hc : c ≠ 92) (input : List Nat) :
    matchCharactersExact input [c] = .ok (input.head? == some c) := by
  have hgt : MatchingType.getType [c] = .ok (.Simple (.Character c)) := by
    simp [MatchingType.getType, CharacterType.getType, CHARACTER_CLASS, hc,
      CharacterType.len]
  cases input with
  | nil =>
    simp [matchCharactersExact, matchCharactersExactAux, hgt, MatchingType.matches]
  | cons i is =>
    by_cases hic : i = c
    · subst hic
      simp [matchCharactersExact, matchCharactersExactAux, hgt,
        MatchingType.matches, CharacterType.matches, MatchResult.new]
    · have hbeq : (i == c) = false := by simp [hic]
      simp [matchCharactersExact, matchCharactersExactAux, hgt,
        MatchingType.matches, CharacterType.matches, MatchResult.new, hbeq, hic]

/-- The unanchored search against a one-byte literal pattern is exactly a
containment test over the line. -/
theorem matchCharactersIterate_single (c : Nat) (hc : c ≠ 92) (input : List Nat) :
    matchCharactersIterate input [c] = .ok (input.contains c) := by
  induction input with
  | nil => rfl
  | cons i is ih =>
    rw [matchCharactersIterate, matchCharactersExact_single c hc (i :: is)]
    by_cases hic : i = c
    · subst hic
      simp [List.contains_cons]
    · have hsome : ((some i == some c) : Bool) = (i == c) := rfl
      have hbeq' : (i == c) = false := by simp [hic]
      rw [List.head?_cons, hsome, hbeq']
      have hbeq : (c == i) = false := by simp [Ne.symm hic]
      simp only [List.contains_cons, hbeq, Bool.false_or]
      exact ih

/-- Claim C1 counterexample: the pattern consisting of the single caret
byte is not an escape, bracket, or quantifier byte, yet `match_pattern`
returns true on the line "a" even though the line does not contain a
caret (the caret is consumed as a start anchor and the remaining empty
pattern matches everything). -/
theorem c1_caret_counterexample :
    matchPattern [97] [94] = .ok true ∧ ([97] : List Nat).contains 94 = false := by
  decide

/-- Claim C1 (amended): for every single-byte pattern whose byte is not an
escape, bracket, quantifier, or anchor byte, `match_pattern` returns
`Ok(true)` exactly when the line contains that byte.  (The claim as
frozen omitted the two anchor bytes, on which the code instead strips the
byte and matches the empty pattern.) -/
theorem c1_single_literal_byte (c : Nat) (input : List Nat)
    (h : c ∉ ([92, 91, 93, 43, 63, 94, 36] : List Nat)) :
    matchPattern input [c] = .ok (input.contains c) := by
  simp only [List.mem_cons, List.not_mem_nil, or_false, not_or] at h
  obtain ⟨h92, h91, h93, h43, h63, h94, h36⟩ := h
  unfold matchPattern
  rw [if_neg (by simp [h91])]
  simp only [matchCharacters, START_ANCHOR, END_ANCHOR]
  rw [if_neg h94]
  rw [if_neg (by simp [h36])]
  exact matchCharactersIterate_single c h92 input

/-- Witness for C1 at a concrete byte and line. -/
theorem c1_single_literal_byte_witness :
    (97 : Nat) ∉ ([92, 91, 93, 43, 63, 94, 36] : List Nat) ∧
      matchPattern [98, 97, 99] [97] = .ok true :=
  ⟨by decide, (c1_single_literal_byte 97 [98, 97, 99] (by decide)).trans (by decide)⟩

/-- The group path of `match_pattern` hands the interior slice
`pattern[1..count-2]` — the bracket content with its final character
dropped — to `match_match_group` (and the slice itself is invalid for
`"[]"`, which the group matcher's empty-group panic also yields). -/
theorem matchPattern_group (input chars : List Nat) :
    matchPattern input (91 :: (chars ++ [93])) = matchMatchGroup input chars.dropLast := by
  have hlast : (91 :: (chars ++ [93])).getLast? = some 93 := by
    rw [← List.cons_append]
    exact List.getLast?_concat _
  unfold matchPattern
  rw [if_pos ⟨rfl, hlast⟩]
  cases chars with
  | nil => rfl
  | cons a as =>
    rw [if_neg (by intro h; simp only [List.length_cons, List.length_append] at h; omega)]
    have h1 : (91 :: ((a :: as) ++ [93])).length - 3 = as.length := by simp
    have h2 : ((a :: as) ++ [93]).take as.length = (a :: as).take as.length :=
      List.take_append_of_le_length (by simp)
    have h3 : (a :: as).dropLast = (a :: as).take as.length := by
      rw [List.dropLast_eq_take]
      simp
    rw [h1, show (91 :: ((a :: as) ++ [93])).drop 1 = (a :: as) ++ [93] from rfl,
      h2, ← h3]

/-- Claim C9 (confirmed): the group path passes `pattern[1..len-2]` to the
group matcher, so the character just before the closing bracket never
participates; for a three-byte group pattern the interior is empty and the
group matcher's `expect` panics instead of returning a bool or error. -/
theorem c9_group_slice_drops_last (input chars : List Nat) (x : Nat) :
    matchPattern input (91 :: (chars ++ [93])) = matchMatchGroup input chars.dropLast ∧
      matchPattern input [91, x, 93] = .panic := by
  refine ⟨matchPattern_group input chars, ?_⟩
  have h := matchPattern_group input [x]
  simpa [matchMatchGroup] using h

/-- Claim C2 counterexample: the line "b" contains the listed character b
of the pattern "[ab]", yet `match_pattern` returns `Ok(false)` (the b is
dropped by the `[1..len-2]` slice before the membership test). -/
theorem c2_group_counterexample :
    matchPattern [98] [91, 97, 98, 93] = .ok false ∧
      ([98] : List Nat).contains 98 = true := by
  decide

/-- Claim C2 (amended): for a bracket pattern, the byte before the closing
bracket is dropped; over the remaining listed characters, a non-negated
group matches iff at least one of them occurs in the line, while a negated
group (remaining interior starting with a caret) matches iff at least one
of the characters after the caret does NOT occur in the line (not "none
occurs", as frozen).  The remaining interior must be non-empty or the
group matcher panics. -/
theorem c2_group_membership (input chars : List Nat) (h : chars.dropLast ≠ []) :
    matchPattern input (91 :: (chars ++ [93])) =
      .ok (if chars.dropLast.head? = some 94 then
            chars.dropLast.tail.any fun ch => !(input.contains ch)
          else
            chars.dropLast.any fun ch => input.contains ch) := by
  rw [matchPattern_group]
  cases hi : chars.dropLast with
  | nil => exact absurd hi h
  | cons d rest =>
    simp only [matchMatchGroup, List.head?_cons, List.tail_cons, START_ANCHOR]
    by_cases hd : d = 94
    · subst hd
      rw [if_pos rfl]
      simp [Bool.bne_true]
    · have hbeq : (d == 94) = false := by simp [hd]
      simp [hbeq, Bool.bne_false, hd]

/-- Witness for C2 at the concrete line "a" and pattern "[ab]". -/
theorem c2_group_membership_witness :
    ([97, 98] : List Nat).dropLast ≠ [] ∧
      matchPattern [97] (91 :: ([97, 98] ++ [93])) = .ok true :=
  ⟨by decide, (c2_group_membership [97] [97, 98] (by decide)).trans (by decide)⟩

/-- Claim C3 counterexample: the whole line "log" equals the
anchor-stripped pattern of "^log$", yet `match_pattern` returns
`Ok(false)` — the trailing dollar is not stripped. -/
theorem c3_double_anchor_counterexample :
    matchPattern [108, 111, 103] [94, 108, 111, 103, 36] = .ok false := by
  decide

/-- Claim C3 (amended): when the pattern starts with a caret, only the
caret is stripped — even when the pattern also ends with a dollar — and
the exact matcher runs on the remainder with the trailing dollar kept as
an ordinary literal byte; so "^log$" matches the line "log$" rather than
the line "log". -/
theorem c3_double_anchor_behavior :
    (∀ input rest : List Nat,
        matchPattern input (94 :: (rest ++ [36]))
          = matchCharactersExact input (rest ++ [36])) ∧
      matchPattern [108, 111, 103, 36] [94, 108, 111, 103, 36] = .ok true := by
  constructor
  · intro input rest
    unfold matchPattern
    rw [if_neg (by simp)]
    simp [matchCharacters, START_ANCHOR]
  · decide

/-- Claim C4 (code bug): an end-anchored, not start-anchored pattern whose
stripped length exceeds the line length does not return `Ok(false)`
cleanly; the driver computes `input_line.len() - pattern_len`, which
underflows (and the resulting slice is out of range), i.e. the call
panics.  In particular the empty line against "a$" panics. -/
theorem c4_end_anchor_short_input_panics (p0 : Nat) (prest input : List Nat)
    (h0 : p0 ≠ 94) (hlen : input.length ≤ prest.length) :
    matchPattern input ((p0 :: prest) ++ [36]) = .panic := by
  have hlast : (p0 :: (prest ++ [36])).getLast? = some 36 := by
    rw [← List.cons_append]
    exact List.getLast?_concat _
  unfold matchPattern
  rw [List.cons_append]
  rw [if_neg (by simp [hlast])]
  simp only [matchCharacters, START_ANCHOR, END_ANCHOR, hlast, h0]
  simp only [if_true, if_false, List.length_cons, List.length_append, List.length_nil]
  rw [if_pos (by omega)]

/-- Witness for C4: the empty line against the pattern "a$". -/
theorem c4_end_anchor_short_input_panics_witness :
    (97 : Nat) ≠ 94 ∧ matchPattern [] ((97 :: []) ++ [36]) = .panic :=
  ⟨by decide, c4_end_anchor_short_input_panics 97 [] [] (by decide) (by decide)⟩

theorem characterClass_getType_err (b e : Nat) (h : CharacterClass.getType b = .err e) :
    e = b ∧ b ≠ CHARACTER_ALPHA ∧ b ≠ CHARACTER_DIGIT := by
  by_cases h1 : b = CHARACTER_ALPHA
  · simp [CharacterClass.getType, h1] at h
  · by_cases h2 : b = CHARACTER_DIGIT
    · simp [CharacterClass.getType, CHARACTER_ALPHA, CHARACTER_DIGIT, h1, h2] at h
    · simp [CharacterClass.getType, h1, h2] at h
      exact ⟨h.symm, h1, h2⟩

theorem characterType_getType_err (p : List Nat) (e : Nat)
    (h : CharacterType.getType p = .err e) :
    e ≠ CHARACTER_ALPHA ∧ e ≠ CHARACTER_DIGIT := by
  cases p with
  | nil => simp [CharacterType.getType] at h
  | cons b rest =>
    by_cases hb : b = CHARACTER_CLASS
    · cases rest with
      | nil => simp [CharacterType.getType, hb] at h
      | cons c cs =>
        simp only [CharacterType.getType, hb, if_true, eq_self_iff_true, if_pos] at h
        obtain ⟨he, h1, h2⟩ := characterClass_getType_err c e h
        rw [he]
        exact ⟨h1, h2⟩
    · simp [CharacterType.getType, hb] at h

theorem MatchingType.getType_err_eq (p : List Nat) (e : Nat)
    (h : MatchingType.getType p = .err e) : CharacterType.getType p = .err e := by
  unfold MatchingType.getType at h
  cases hct : CharacterType.getType p with
  | err b =>
    rw [hct] at h
    simp at h
    rw [h]
  | panic =>
    rw [hct] at h
    simp at h
  | ok t =>
    rw [hct] at h
    simp at h
    split at h
    · split at h
      · split at h
        · simp at h
        · split at h <;> simp at h
      · simp at h
    · simp at h

theorem matchCharactersExactAux_err (fuel : Nat) :
    ∀ (input p : List Nat) (e : Nat), matchCharactersExactAux fuel input p = .err e →
      e ≠ CHARACTER_ALPHA ∧ e ≠ CHARACTER_DIGIT := by
  induction fuel with
  | zero =>
    intro input p e h
    cases p with
    | nil => simp [matchCharactersExactAux] at h
    | cons a as => simp [matchCharactersExactAux] at h
  | succ f ih =>
    intro input p e h
    cases p with
    | nil => rw [matchCharactersExactAux_nil] at h; simp at h
    | cons a as =>
      simp only [matchCharactersExactAux] at h
      split at h
      · rename_i b hgt
        simp at h
        rw [← h]
        exact characterType_getType_err (a :: as) b (MatchingType.getType_err_eq _ _ hgt)
      · simp at h
      · rename_i t hgt
        split at h
        · simp at h
        · exact ih _ _ _ h

theorem matchCharactersIterate_err :
    ∀ (input p : List Nat) (e : Nat), matchCharactersIterate input p = .err e →
      e ≠ CHARACTER_ALPHA ∧ e ≠ CHARACTER_DIGIT := by
  intro input
  induction input with
  | nil => intro p e h; simp [matchCharactersIterate] at h
  | cons i is ih =>
    intro p e h
    simp only [matchCharactersIterate] at h
    split at h
    · simp at h
    · exact ih p e h
    · rename_i b hx
      simp at h
      rw [← h]
      exact matchCharactersExactAux_err p.length (i :: is) p b hx
    · simp at h

theorem matchMatchGroup_ne_err (input p : List Nat) (e : Nat) :
    matchMatchGroup input p ≠ .err e := by
  cases p with
  | nil => simp [matchMatchGroup]
  | cons c rest => simp [matchMatchGroup]

theorem matchCharactersExact_err (input p : List Nat) (e : Nat)
    (h : matchCharactersExact input p = .err e) :
    e ≠ CHARACTER_ALPHA ∧ e ≠ CHARACTER_DIGIT :=
  matchCharactersExactAux_err p.length input p e h

theorem matchCharacters_err (input p : List Nat) (e : Nat)
    (h : matchCharacters input p = .err e) :
    e ≠ CHARACTER_ALPHA ∧ e ≠ CHARACTER_DIGIT := by
  cases p with
  | nil => simp [matchCharacters] at h
  | cons p0 ps =>
    simp only [matchCharacters] at h
    split at h
    · exact matchCharactersExact_err _ _ _ h
    · split at h
      · split at h
        · simp at h
        · exact matchCharactersExact_err _ _ _ h
      · exact matchCharactersIterate_err _ _ _ h

theorem matchPattern_err (input p : List Nat) (e : Nat)
    (h : matchPattern input p = .err e) :
    e ≠ CHARACTER_ALPHA ∧ e ≠ CHARACTER_DIGIT := by
  unfold matchPattern at h
  split at h
  · split at h
    · simp at h
    · exact absurd h (matchMatchGroup_ne_err _ _ _)
  · exact matchCharacters_err _ _ _ h

/-- Claim C5 (amended): the unrecognized-escape error is raised only when
classification actually reaches the escape.  When the pattern STARTS with
an unrecognized escape (no trailing dollar, so the unanchored search path
runs) and the line is non-empty, `match_pattern` fails with the single
classification error carrying the offending byte; and every error the
core ever produces carries a byte other than w or d, i.e. it is the
UnrecognizedEscape classification error propagated unchanged from
`CharacterClass::get_type` (the `Res.err` constructor is the only error
the embedding can build, mirroring the single `bail!` site). -/
theorem c5_unrecognized_escape :
    (∀ (c : Nat) (rest input : List Nat), c ≠ 119 → c ≠ 100 →
        (92 :: c :: rest).getLast? ≠ some 36 → input ≠ [] →
        matchPattern input (92 :: c :: rest) = .err c) ∧
      (∀ (input pattern : List Nat) (e : Nat),
        matchPattern input pattern = .err e → e ≠ 119 ∧ e ≠ 100) := by
  constructor
  · intro c rest input hw hd hlast hinp
    have hgt : MatchingType.getType (92 :: c :: rest) = .err c := by
      simp [MatchingType.getType, CharacterType.getType, CharacterClass.getType,
        CHARACTER_CLASS, CHARACTER_ALPHA, CHARACTER_DIGIT, hw, hd]
    have hex : matchCharactersExact input (92 :: c :: rest) = .err c := by
      simp only [matchCharactersExact, List.length_cons, matchCharactersExactAux, hgt]
    obtain ⟨i, is, hii⟩ := List.exists_cons_of_ne_nil hinp
    subst hii
    unfold matchPattern
    rw [if_neg (by simp)]
    simp only [matchCharacters, START_ANCHOR, END_ANCHOR]
    have h94 : (92 = 94) = False := by simp
    simp only [h94, eq_false hlast, if_false]
    simp only [matchCharactersIterate]
    rw [hex]
  · intro input pattern e h
    have hh := matchPattern_err input pattern e h
    simpa [CHARACTER_ALPHA, CHARACTER_DIGIT] using hh

/-- Claim C5 counterexample: the pattern "x\\z" contains the unrecognized
escape sequence backslash-z, yet on the line "y" the first literal fails
before classification reaches the escape, and `match_pattern` returns
`Ok(false)` instead of the claimed error. -/
theorem c5_escape_counterexample :
    matchPattern [121] [120, 92, 122] = .ok false := by
  decide

/-- Witness for C5: the pattern "\\z" against the line "a" errs with the
offending byte z. -/
theorem c5_unrecognized_escape_witness :
    (122 : Nat) ≠ 119 ∧ matchPattern [97] (92 :: 122 :: []) = .err 122 :=
  ⟨by decide,
    c5_unrecognized_escape.1 122 [] [97] (by decide) (by decide) (by decide) (by decide)⟩
